import Mathlib

/-!
Verification of the keepa-golang token-bucket-aware HTTP client
(`internal/api` package: client and token manager) via a shallow embedding.

Conventions of the embedding:
- Go `time.Duration` and `time.Time` are modelled as `Int` nanoseconds.
- Go `json.Unmarshal` of a response body into `map[string]interface` is
  modelled by handing the functions the parse result directly: `none` when
  the bytes do not unmarshal into a JSON object, `some fields` otherwise.
  After `json.Unmarshal`, every JSON number is a Go `float64`; the decoded
  values are carried as rationals (the field-extraction claims depend on
  presence and type, not on decimal-to-binary rounding), so the dead
  `.(int)` type-assertion branches of the source have no counterpart
  constructor.
- Where the program performs float64 arithmetic whose rounding is
  observable — the wait estimate of ShouldWait — each operation is
  modelled explicitly as the exact result rounded to 53 significant bits,
  nearest, ties to even (roundFloat below): the value-level semantics of
  IEEE-754 double operations for values in the normal range, which covers
  every value these computations can produce from integer inputs.
- The reader/writer mutex is dropped: state is threaded explicitly, and the
  interleaving of concurrent callers inside `WaitIfNeeded` is modelled by a
  schedule that supplies, per loop iteration, the select branch taken and
  the token state currently visible.
-/

namespace Keepa

/-- JSON value as produced by Go json.Unmarshal into a dynamic value:
numbers arrive as float64 (modelled as rationals), objects as string-keyed
maps (modelled as association lists with unique keys). -/
inductive Jval where
  | num (q : ℚ)
  | str (s : String)
  | boolean (b : Bool)
  | null
  | arr (xs : List Jval)
  | obj (fields : List (String × Jval))

/-- Result of json.Unmarshal of a response body into a Go map: `none` when
the body is not valid JSON or its top level is not an object, otherwise the
object fields. -/
def Body : Type := Option (List (String × Jval))

/-- Go conversion of a float64 (modelled exactly) to an integer type:
truncation toward zero. Used for int(val) and time.Duration(val). -/
def goIntOfFloat (q : ℚ) : Int :=
  if 0 ≤ q then q.floor else q.ceil

/-- Go time.Millisecond in nanoseconds. -/
def millisecond : Int := 1000000

/-- Go time.Second in nanoseconds. -/
def second : Int := 1000000000

/-- Go time.Minute in nanoseconds. -/
def minute : Int := 60000000000

/-- Round a rational to the nearest integer, ties to even: the rounding
applied to the scaled significand in the float64 model. -/
def rne (y : ℚ) : Int :=
  let fl := y.floor
  let fr := y - (fl : ℚ)
  if fr < 1/2 then fl
  else if 1/2 < fr then fl + 1
  else if fl % 2 = 0 then fl else fl + 1

/-- Floor of the base-two logarithm of a positive rational, computed from
the integer logarithms of numerator and denominator with a one-step
downward correction. -/
def ilog2 (q : ℚ) : Int :=
  let g : Int := (Nat.log2 q.num.toNat : Int) - (Nat.log2 q.den : Int)
  if q < (2:ℚ) ^ g then g - 1 else g

/-- Round a positive rational to 53 significant bits, nearest, ties to
even: the value of the IEEE-754 float64 nearest to q, for positive q in
the normal range. -/
def roundFloatPos (q : ℚ) : ℚ :=
  ((rne (q / (2:ℚ) ^ (ilog2 q - 52)) : Int) : ℚ) * (2:ℚ) ^ (ilog2 q - 52)

/-- Round a rational to the value of the nearest float64 (normal range):
zero and sign handled, magnitude rounded by roundFloatPos. -/
def roundFloat (q : ℚ) : ℚ :=
  if q = 0 then 0
  else if q < 0 then -(roundFloatPos (-q))
  else roundFloatPos q

/-- Go conversion of an int to float64: the correctly rounded value. -/
def floatOfInt (n : Int) : ℚ := roundFloat (n : ℚ)

/-- float64 division: the exact quotient, correctly rounded. -/
def fdiv (a b : ℚ) : ℚ := roundFloat (a / b)

/-- float64 multiplication: the exact product, correctly rounded. -/
def fmul (a b : ℚ) : ℚ := roundFloat (a * b)

/-- Embedding of the TokenManager struct (token_manager.go). Durations and
timestamps are Int nanoseconds; the mutex and logger are dropped. -/
structure TokenManager where
  tokensLeft : Int
  refillRate : Int
  refillIn : Int
  lastUpdate : Int
  minTokensThreshold : Int
  maxWaitTime : Int
  enableRateLimit : Bool
deriving Repr, DecidableEq

/-- Embedding of the ErrorInfo struct. -/
structure ErrorInfo where
  type : String
  message : String
  details : String
deriving Repr, DecidableEq

/-- Embedding of the TokenInfo struct: token fields of a Keepa response.
RefillIn is milliseconds (an int field, scaled only when written into the
TokenManager). -/
structure TokenInfo where
  RefillRate : Int
  RefillIn : Int
  TokensLeft : Int
  TokensConsumed : Int
  TokenFlowReduction : ℚ
  ProcessingTimeInMs : Int
  Timestamp : Int
  Error : Option ErrorInfo
deriving Repr, DecidableEq

/-- Embedding of TokenManager.UpdateFromResponse. The Go method mutates the
receiver and returns an error; here it returns the new state and the error.
On a body that does not unmarshal into an object it returns early with an
error, leaving every field (lastUpdate included) untouched. Otherwise each
of refillRate, refillIn, tokensLeft is overwritten exactly when present as
a number (the float64 assertion of the source; the int assertion is dead),
and lastUpdate is stamped with the current time. -/
def UpdateFromResponse (tm : TokenManager) (now : Int) (body : Body) :
    TokenManager × Option String :=
  match body with
  | none => (tm, some "failed to parse response")
  | some response =>
    let tm1 :=
      match response.lookup "refillRate" with
      | some (Jval.num q) => { tm with refillRate := goIntOfFloat q }
      | _ => tm
    let tm2 :=
      match response.lookup "refillIn" with
      | some (Jval.num q) => { tm1 with refillIn := goIntOfFloat q * millisecond }
      | _ => tm1
    let tm3 :=
      match response.lookup "tokensLeft" with
      | some (Jval.num q) => { tm2 with tokensLeft := goIntOfFloat q }
      | _ => tm2
    ({ tm3 with lastUpdate := now }, none)

/-- Reading of one integer token field in ParseTokenInfoFromResponse: the
zero-initialised field is overwritten only when the key is present with a
number (float64 case of the type switch; the int case is dead). -/
def parseIntField (v : Option Jval) : Int :=
  match v with
  | some (Jval.num q) => goIntOfFloat q
  | _ => 0

/-- Reading of the float64 tokenFlowReduction field. -/
def parseFloatField (v : Option Jval) : ℚ :=
  match v with
  | some (Jval.num q) => q
  | _ => 0

/-- Reading of one string field of the embedded error object. -/
def parseStrField (v : Option Jval) : String :=
  match v with
  | some (Jval.str s) => s
  | _ => ""

/-- Embedding of ParseTokenInfoFromResponse: fails exactly when the body
does not unmarshal into an object; otherwise builds a TokenInfo whose
fields are zero unless present in the body with the expected dynamic type.
-/
def ParseTokenInfoFromResponse (body : Body) : Except String TokenInfo :=
  match body with
  | none => Except.error "failed to parse response"
  | some response =>
    Except.ok
      { RefillRate := parseIntField (response.lookup "refillRate")
        RefillIn := parseIntField (response.lookup "refillIn")
        TokensLeft := parseIntField (response.lookup "tokensLeft")
        TokensConsumed := parseIntField (response.lookup "tokensConsumed")
        TokenFlowReduction := parseFloatField (response.lookup "tokenFlowReduction")
        ProcessingTimeInMs := parseIntField (response.lookup "processingTimeInMs")
        Timestamp := parseIntField (response.lookup "timestamp")
        Error :=
          match response.lookup "error" with
          | some (Jval.obj errorObj) =>
            some
              { type := parseStrField (errorObj.lookup "type")
                message := parseStrField (errorObj.lookup "message")
                details := parseStrField (errorObj.lookup "details") }
          | _ => none }

/-- Embedding of TokenManager.UpdateFromTokenInfo: overwrites tokensLeft,
refillRate and refillIn unconditionally from the TokenInfo (RefillIn is
milliseconds, scaled to a duration) and stamps lastUpdate. -/
def UpdateFromTokenInfo (tm : TokenManager) (now : Int) (info : TokenInfo) :
    TokenManager :=
  { tm with
    tokensLeft := info.TokensLeft
    refillRate := info.RefillRate
    refillIn := info.RefillIn * millisecond
    lastUpdate := now }

/-- Token-update step of the 429 handling (inlined in DoRequest and shared
by handle429Error): try ParseTokenInfoFromResponse and UpdateFromTokenInfo;
when the parse fails, fall back to UpdateFromResponse, whose error is
swallowed. -/
def handle429TokenUpdate (tm : TokenManager) (now : Int) (body : Body) :
    TokenManager :=
  match ParseTokenInfoFromResponse body with
  | Except.ok info => UpdateFromTokenInfo tm now info
  | Except.error _ => (UpdateFromResponse tm now body).1

/-- Wait time computed by ShouldWait before clamping: the server-reported
refillIn, replaced by the estimate when refillIn is below one second and
refillRate is positive. The estimate mirrors the source float64
computation: minutesNeeded is float64(tokensNeeded) / float64(refillRate),
the product minutesNeeded times float64(time.Minute) is a float64, and the
Go duration conversion truncates it to integer nanoseconds. Every float64
operation is modelled by roundFloat. -/
def estimatedWaitTime (tm : TokenManager) : Int :=
  let waitTime := tm.refillIn
  if waitTime < second ∧ 0 < tm.refillRate then
    let tokensNeeded := tm.minTokensThreshold - tm.tokensLeft
    if 0 < tokensNeeded then
      let minutesNeeded : ℚ := fdiv (floatOfInt tokensNeeded) (floatOfInt tm.refillRate)
      goIntOfFloat (fmul minutesNeeded (floatOfInt minute))
    else waitTime
  else waitTime

/-- Embedding of TokenManager.ShouldWait: no wait when rate limiting is
disabled or tokensLeft is at least the threshold; otherwise the estimated
wait, clamped first down to maxWaitTime and then up to one second. -/
def ShouldWait (tm : TokenManager) : Bool × Int :=
  if !tm.enableRateLimit then (false, 0)
  else if tm.tokensLeft < tm.minTokensThreshold then
    let waitTime := estimatedWaitTime tm
    let waitTime := if tm.maxWaitTime < waitTime then tm.maxWaitTime else waitTime
    let waitTime := if waitTime < second then second else waitTime
    (true, waitTime)
  else (false, 0)

/-- Embedding of TokenManagerConfig (logger dropped). -/
structure TokenManagerConfig where
  MinTokensThreshold : Int
  MaxWaitTime : Int
  EnableRateLimit : Bool
deriving Repr, DecidableEq

/-- Embedding of NewTokenManager: defaults MinTokensThreshold to 5 when
nonpositive and MaxWaitTime to 60 minutes when zero; EnableRateLimit is
passed through unchanged. The initial token fields are the budget-unknown
sentinel and lastUpdate is the construction time. -/
def NewTokenManager (cfg : TokenManagerConfig) (now : Int) : TokenManager :=
  let minTokensThreshold :=
    if cfg.MinTokensThreshold ≤ 0 then 5 else cfg.MinTokensThreshold
  let maxWaitTime :=
    if cfg.MaxWaitTime = 0 then 60 * minute else cfg.MaxWaitTime
  { tokensLeft := 0
    refillRate := 0
    refillIn := 0
    lastUpdate := now
    minTokensThreshold := minTokensThreshold
    maxWaitTime := maxWaitTime
    enableRateLimit := cfg.EnableRateLimit }

/-- Select branch taken by one iteration of the WaitIfNeeded loop: the
independent deadline context fired, the caller context was observed as
canceled, or the one-second ticker fired. -/
inductive WaitEvent where
  | deadline
  | ctxCanceled
  | tick
deriving Repr, DecidableEq

/-- Result of WaitIfNeeded under a finite schedule: the function returned
(carrying the Go error value it returned), or the schedule ran out with the
loop still going. -/
inductive WaitOutcome where
  | returned (err : Option String)
  | running
deriving Repr, DecidableEq

/-- Embedding of the wait loop of TokenManager.WaitIfNeeded. Concurrency is
modelled by the schedule: each iteration is given the select branch taken
and the TokenManager state visible at that moment (concurrent observe calls
may have changed it). The deadline branch rechecks ShouldWait but returns a
nil error either way; the caller-cancellation branch only logs and loops;
the ticker branch returns nil when tokens have recovered or the remaining
wait is below two seconds (after sleeping it out), and loops otherwise. -/
def WaitIfNeededLoop : List (WaitEvent × TokenManager) → WaitOutcome
  | [] => WaitOutcome.running
  | (ev, tm) :: rest =>
    match ev with
    | WaitEvent.deadline =>
      match ShouldWait tm with
      | (true, _) => WaitOutcome.returned none
      | (false, _) => WaitOutcome.returned none
    | WaitEvent.ctxCanceled => WaitIfNeededLoop rest
    | WaitEvent.tick =>
      match ShouldWait tm with
      | (false, _) => WaitOutcome.returned none
      | (true, remainingWait) =>
        if remainingWait < 2 * second then WaitOutcome.returned none
        else WaitIfNeededLoop rest

/-- Embedding of TokenManager.WaitIfNeeded: returns nil at once when no
wait is needed, otherwise runs the wait loop under the given schedule. -/
def WaitIfNeeded (tm : TokenManager) (sched : List (WaitEvent × TokenManager)) :
    WaitOutcome :=
  match ShouldWait tm with
  | (false, _) => WaitOutcome.returned none
  | (true, _) => WaitIfNeededLoop sched

/-- Embedding of the Client struct (client.go, token-manager variant).
Logger and the print flags are dropped; the token manager is the one
mutable collaborator and is threaded through the dispatch functions. -/
structure Client where
  baseURL : String
  accessKey : String
  timeout : Int
  tokenManager : Option TokenManager
deriving Repr, DecidableEq

/-- Embedding of the client Config struct (logger and print flags dropped).
-/
structure Config where
  BaseURL : String
  AccessKey : String
  Timeout : Int
  TokenManager : Option TokenManager
deriving Repr, DecidableEq

/-- Keepa API base URL constant. -/
def KeepaBaseURL : String := "https://api.keepa.com/"

/-- Embedding of NewClient: defaults the request timeout to 30 seconds when
zero and the base URL to KeepaBaseURL when empty. -/
def NewClient (cfg : Config) : Client :=
  let timeout := if cfg.Timeout = 0 then 30 * second else cfg.Timeout
  let baseURL := if cfg.BaseURL = "" then KeepaBaseURL else cfg.BaseURL
  { baseURL := baseURL
    accessKey := cfg.AccessKey
    timeout := timeout
    tokenManager := cfg.TokenManager }

/-- Classified errors a dispatch can return. httpStatus carries the status
code and whether the message carries the Too Many Requests suffix. -/
inductive ApiError where
  | buildURL
  | missingAccessKey
  | marshalBody
  | transport
  | httpStatus (code : Int) (tooManyRequests : Bool)
  | readBody
deriving Repr, DecidableEq

/-- Whether an error is the HTTP-status error for status code 429. -/
def mentions429 : ApiError → Bool
  | ApiError.httpStatus code _ => code = 429
  | _ => false

/-- One HTTP response as delivered by the transport: status code, whether
reading the body with io.ReadAll succeeds, and the JSON parse of the body.
-/
structure HttpResp where
  status : Int
  readOk : Bool
  body : Body

/-- One network round trip outcome: a transport-level failure or a
delivered response. -/
inductive NetResult where
  | transportErr
  | response (r : HttpResp)

/-- Observable client events: a WaitIfNeeded call, an HTTP dispatch over
the network, a token-state update from a response body. -/
inductive Ev where
  | wait
  | send
  | observe
deriving Repr, DecidableEq

/-- Outcome of a dispatch: a response delivered to the caller, an error, or
the scripted responses ran out while the 429 retry loop was still going. -/
inductive ReqOutcome where
  | ok (r : HttpResp)
  | fail (e : ApiError)
  | pending

/-- Result of a dispatch: outcome, the token manager state left behind, how
many HTTP requests went out, and the event trace. -/
structure DispatchResult where
  outcome : ReqOutcome
  tokenMgr : Option TokenManager
  sent : Nat
  events : List Ev

/-- Embedding of Client.DoRequest (token-manager variant). The network is
scripted: each dispatch consumes the next NetResult. urlOk abstracts
whether url.JoinPath and url.Parse succeed on the base URL and endpoint.
Step order follows the source: WaitIfNeeded when a token manager is
configured, context substitution (no observable effect here), URL
building, the access-key check, dispatch, then status classification. A
429 with a configured token manager updates the token state from the body
(when readable), waits, and retries the same endpoint and params on a
fresh context; a 429 without one is returned as an HTTP-status error with
the Too Many Requests suffix. -/
def DoRequest (urlOk : String → String → Bool) (c : Client) (endpoint : String)
    (params : List (String × String)) (now : Int)
    (responses : List NetResult) : DispatchResult :=
  let waitEvs : List Ev :=
    match c.tokenManager with
    | some _ => [Ev.wait]
    | none => []
  if urlOk c.baseURL endpoint = false then
    ⟨ReqOutcome.fail ApiError.buildURL, c.tokenManager, 0, waitEvs⟩
  else if c.accessKey = "" then
    ⟨ReqOutcome.fail ApiError.missingAccessKey, c.tokenManager, 0, waitEvs⟩
  else
    match responses with
    | [] => ⟨ReqOutcome.pending, c.tokenManager, 0, waitEvs⟩
    | NetResult.transportErr :: _ =>
      ⟨ReqOutcome.fail ApiError.transport, c.tokenManager, 1, waitEvs ++ [Ev.send]⟩
    | NetResult.response r :: rest =>
      if r.status = 429 then
        match c.tokenManager with
        | some tm =>
          let tm2 := if r.readOk then handle429TokenUpdate tm now r.body else tm
          let obsEvs : List Ev := if r.readOk then [Ev.observe] else []
          let d := DoRequest urlOk { c with tokenManager := some tm2 }
            endpoint params now rest
          ⟨d.outcome, d.tokenMgr, 1 + d.sent,
            waitEvs ++ [Ev.send] ++ obsEvs ++ [Ev.wait] ++ d.events⟩
        | none =>
          ⟨ReqOutcome.fail (ApiError.httpStatus 429 true), none, 1,
            waitEvs ++ [Ev.send]⟩
      else if r.status < 200 ∨ 300 ≤ r.status then
        ⟨ReqOutcome.fail (ApiError.httpStatus r.status false), c.tokenManager, 1,
          waitEvs ++ [Ev.send]⟩
      else
        ⟨ReqOutcome.ok r, c.tokenManager, 1, waitEvs ++ [Ev.send]⟩

/-- Embedding of Client.GetRawData: DoRequest, then read the body (a read
failure is an error), then update the token manager from the body when one
is configured (an update error is only logged), then hand the raw bytes to
the caller. -/
def GetRawData (urlOk : String → String → Bool) (c : Client) (endpoint : String)
    (params : List (String × String)) (now : Int)
    (responses : List NetResult) : DispatchResult :=
  let d := DoRequest urlOk c endpoint params now responses
  match d.outcome with
  | ReqOutcome.ok r =>
    if r.readOk = false then
      ⟨ReqOutcome.fail ApiError.readBody, d.tokenMgr, d.sent, d.events⟩
    else
      match d.tokenMgr with
      | some tm =>
        ⟨ReqOutcome.ok r, some (UpdateFromResponse tm now r.body).1,
          d.sent, d.events ++ [Ev.observe]⟩
      | none => ⟨ReqOutcome.ok r, none, d.sent, d.events⟩
  | out => ⟨out, d.tokenMgr, d.sent, d.events⟩

/-- Embedding of Client.PostRawData. marshalOk abstracts whether
json.Marshal of the request body succeeds. On a 429 the client runs
handle429Error (update the token state from the body when readable and a
token manager is configured, then wait when one is configured) and then
retries unconditionally, token manager or not. -/
def PostRawData (urlOk : String → String → Bool) (marshalOk : Bool) (c : Client)
    (endpoint : String) (now : Int) (responses : List NetResult) :
    DispatchResult :=
  let waitEvs : List Ev :=
    match c.tokenManager with
    | some _ => [Ev.wait]
    | none => []
  if urlOk c.baseURL endpoint = false then
    ⟨ReqOutcome.fail ApiError.buildURL, c.tokenManager, 0, waitEvs⟩
  else if c.accessKey = "" then
    ⟨ReqOutcome.fail ApiError.missingAccessKey, c.tokenManager, 0, waitEvs⟩
  else if marshalOk = false then
    ⟨ReqOutcome.fail ApiError.marshalBody, c.tokenManager, 0, waitEvs⟩
  else
    match responses with
    | [] => ⟨ReqOutcome.pending, c.tokenManager, 0, waitEvs⟩
    | NetResult.transportErr :: _ =>
      ⟨ReqOutcome.fail ApiError.transport, c.tokenManager, 1, waitEvs ++ [Ev.send]⟩
    | NetResult.response r :: rest =>
      if r.status = 429 then
        let tmAfter : Option TokenManager :=
          match c.tokenManager with
          | some tm => some (if r.readOk then handle429TokenUpdate tm now r.body else tm)
          | none => none
        let h429Evs : List Ev :=
          match c.tokenManager with
          | some _ => (if r.readOk then [Ev.observe] else []) ++ [Ev.wait]
          | none => []
        let d := PostRawData urlOk marshalOk { c with tokenManager := tmAfter }
          endpoint now rest
        ⟨d.outcome, d.tokenMgr, 1 + d.sent, waitEvs ++ [Ev.send] ++ h429Evs ++ d.events⟩
      else if r.status < 200 ∨ 300 ≤ r.status then
        ⟨ReqOutcome.fail (ApiError.httpStatus r.status false), c.tokenManager, 1,
          waitEvs ++ [Ev.send]⟩
      else if r.readOk = false then
        ⟨ReqOutcome.fail ApiError.readBody, c.tokenManager, 1, waitEvs ++ [Ev.send]⟩
      else
        match c.tokenManager with
        | some tm =>
          ⟨ReqOutcome.ok r, some (UpdateFromResponse tm now r.body).1, 1,
            waitEvs ++ [Ev.send, Ev.observe]⟩
        | none => ⟨ReqOutcome.ok r, none, 1, waitEvs ++ [Ev.send]⟩

/-- Embedding of Client.PostRawDataWithParams: PostRawData plus
caller-supplied query parameters, threaded unchanged through retries. -/
def PostRawDataWithParams (urlOk : String → String → Bool) (marshalOk : Bool)
    (c : Client) (endpoint : String) (params : List (String × String))
    (now : Int) (responses : List NetResult) : DispatchResult :=
  let waitEvs : List Ev :=
    match c.tokenManager with
    | some _ => [Ev.wait]
    | none => []
  if urlOk c.baseURL endpoint = false then
    ⟨ReqOutcome.fail ApiError.buildURL, c.tokenManager, 0, waitEvs⟩
  else if c.accessKey = "" then
    ⟨ReqOutcome.fail ApiError.missingAccessKey, c.tokenManager, 0, waitEvs⟩
  else if marshalOk = false then
    ⟨ReqOutcome.fail ApiError.marshalBody, c.tokenManager, 0, waitEvs⟩
  else
    match responses with
    | [] => ⟨ReqOutcome.pending, c.tokenManager, 0, waitEvs⟩
    | NetResult.transportErr :: _ =>
      ⟨ReqOutcome.fail ApiError.transport, c.tokenManager, 1, waitEvs ++ [Ev.send]⟩
    | NetResult.response r :: rest =>
      if r.status = 429 then
        let tmAfter : Option TokenManager :=
          match c.tokenManager with
          | some tm => some (if r.readOk then handle429TokenUpdate tm now r.body else tm)
          | none => none
        let h429Evs : List Ev :=
          match c.tokenManager with
          | some _ => (if r.readOk then [Ev.observe] else []) ++ [Ev.wait]
          | none => []
        let d := PostRawDataWithParams urlOk marshalOk { c with tokenManager := tmAfter }
          endpoint params now rest
        ⟨d.outcome, d.tokenMgr, 1 + d.sent, waitEvs ++ [Ev.send] ++ h429Evs ++ d.events⟩
      else if r.status < 200 ∨ 300 ≤ r.status then
        ⟨ReqOutcome.fail (ApiError.httpStatus r.status false), c.tokenManager, 1,
          waitEvs ++ [Ev.send]⟩
      else if r.readOk = false then
        ⟨ReqOutcome.fail ApiError.readBody, c.tokenManager, 1, waitEvs ++ [Ev.send]⟩
      else
        match c.tokenManager with
        | some tm =>
          ⟨ReqOutcome.ok r, some (UpdateFromResponse tm now r.body).1, 1,
            waitEvs ++ [Ev.send, Ev.observe]⟩
        | none => ⟨ReqOutcome.ok r, none, 1, waitEvs ++ [Ev.send]⟩

/-- Value an integer token field takes after an update that reads the
given key from the object: the number found there (converted the Go way)
or the fallback when the key is absent or not a number. -/
def numFieldOr (flds : List (String × Jval)) (key : String) (dflt : Int) : Int :=
  match flds.lookup key with
  | some (Jval.num q) => goIntOfFloat q
  | _ => dflt

/-- Value a duration field takes after an update that reads the given key
from the object: the number found there scaled (milliseconds to a Go
duration) or the fallback when the key is absent or not a number. -/
def numFieldScaledOr (flds : List (String × Jval)) (key : String)
    (scale dflt : Int) : Int :=
  match flds.lookup key with
  | some (Jval.num q) => goIntOfFloat q * scale
  | _ => dflt

/-- Concrete token state after a burst: plenty of tokens, fresh server
numbers, defaults for the configuration fields. -/
def tmBurst : TokenManager :=
  { tokensLeft := 100, refillRate := 10, refillIn := 5 * second, lastUpdate := 0,
    minTokensThreshold := 5, maxWaitTime := 60 * minute, enableRateLimit := true }

/-- Concrete token state with rate limiting disabled and a deep deficit. -/
def tmDisabled : TokenManager :=
  { tokensLeft := -1000, refillRate := 0, refillIn := 0, lastUpdate := 0,
    minTokensThreshold := 5, maxWaitTime := 60 * minute, enableRateLimit := false }

/-- Concrete token state with a configured maxWaitTime of one millisecond,
below the one-second floor of ShouldWait. -/
def tmShortMax : TokenManager :=
  { tokensLeft := 0, refillRate := 0, refillIn := 2 * second, lastUpdate := 0,
    minTokensThreshold := 5, maxWaitTime := millisecond, enableRateLimit := true }

/-- Concrete token state one token short of the threshold with a refill
rate of two tokens per minute and an expired refillIn. -/
def tmHalfMinute : TokenManager :=
  { tokensLeft := 4, refillRate := 2, refillIn := 0, lastUpdate := 0,
    minTokensThreshold := 5, maxWaitTime := 60 * minute, enableRateLimit := true }

/-- Concrete token state below the threshold with a five-second refillIn. -/
def tmLow : TokenManager :=
  { tokensLeft := 0, refillRate := 10, refillIn := 5 * second, lastUpdate := 0,
    minTokensThreshold := 5, maxWaitTime := 60 * minute, enableRateLimit := true }

/-- Concrete client without a token manager. -/
def clientNoTM : Client :=
  { baseURL := KeepaBaseURL, accessKey := "key123", timeout := 30 * second,
    tokenManager := none }

/-- Concrete client with a token manager. -/
def clientWithTM : Client :=
  { baseURL := KeepaBaseURL, accessKey := "key123", timeout := 30 * second,
    tokenManager := some tmBurst }

/-- Concrete client whose access key was never set. -/
def clientNoKey : Client :=
  { baseURL := KeepaBaseURL, accessKey := "", timeout := 30 * second,
    tokenManager := none }

/-- A 429 response whose body is the empty JSON object. -/
def resp429empty : HttpResp := { status := 429, readOk := true, body := some [] }

/-- A 200 response whose body is the empty JSON object. -/
def resp200empty : HttpResp := { status := 200, readOk := true, body := some [] }

/-- URL building that always succeeds, the common case for the constant
Keepa base URL. -/
def urlAlwaysOk : String → String → Bool := fun _ _ => true

/-- On nonnegative input the Go truncation agrees with the floor. -/
lemma goIntOfFloat_eq_floor (q : ℚ) (h : 0 ≤ q) : goIntOfFloat q = ⌊q⌋ := by
  rw [goIntOfFloat, if_pos h, Rat.floor_def', Rat.floor_def]

/-- The wait loop either runs out of schedule or returns a nil error. -/
lemma waitLoop_running_or_nil (sched : List (WaitEvent × TokenManager)) :
    WaitIfNeededLoop sched = WaitOutcome.running ∨
      WaitIfNeededLoop sched = WaitOutcome.returned none := by
  induction sched with
  | nil => exact Or.inl rfl
  | cons p rest ih =>
    obtain ⟨ev, tm⟩ := p
    cases ev with
    | deadline =>
      right
      rcases h : ShouldWait tm with ⟨b, d⟩
      cases b <;> simp [WaitIfNeededLoop, h]
    | ctxCanceled => exact ih
    | tick =>
      rcases h : ShouldWait tm with ⟨b, d⟩
      cases b with
      | false => exact Or.inr (by simp [WaitIfNeededLoop, h])
      | true =>
        by_cases hlt : d < 2 * second
        · exact Or.inr (by simp [WaitIfNeededLoop, h, hlt])
        · simpa [WaitIfNeededLoop, h, hlt] using ih

/-- Claim C3: WaitIfNeeded never exits its wait loop because the caller
context was canceled — the cancellation branch only logs and continues
looping — and on every return path (tokens sufficient on a recheck,
remaining wait below two seconds, or the independent deadline elapsing) it
returns a nil error, never a non-nil one. -/
theorem C3_wait_ignores_cancellation_and_returns_nil :
    (∀ (s : TokenManager) (rest : List (WaitEvent × TokenManager)),
      WaitIfNeededLoop ((WaitEvent.ctxCanceled, s) :: rest) = WaitIfNeededLoop rest)
    ∧ (∀ (tm : TokenManager) (sched : List (WaitEvent × TokenManager)),
      WaitIfNeeded tm sched = WaitOutcome.running ∨
        WaitIfNeeded tm sched = WaitOutcome.returned none) := by
  constructor
  · intro s rest
    rfl
  · intro tm sched
    rcases h : ShouldWait tm with ⟨b, d⟩
    cases b with
    | false => exact Or.inr (by simp [WaitIfNeeded, h])
    | true => simpa [WaitIfNeeded, h] using waitLoop_running_or_nil sched

/-- Claim C4: for every TokenManager state in which enableRateLimit is
false or tokensLeft is at least minTokensThreshold, ShouldWait returns
(false, 0). -/
theorem C4_shouldWait_threshold_invariant (tm : TokenManager)
    (h : tm.enableRateLimit = false ∨ tm.minTokensThreshold ≤ tm.tokensLeft) :
    ShouldWait tm = (false, 0) := by
  rcases h with h | h
  · simp [ShouldWait, h]
  · have hlt : ¬ tm.tokensLeft < tm.minTokensThreshold := not_lt.mpr h
    by_cases he : tm.enableRateLimit <;> simp [ShouldWait, he, hlt]

/-- Witness for C4 at the state named by the spec: rate limiting disabled
and tokensLeft equal to minus one thousand. -/
theorem C4_shouldWait_threshold_invariant_witness :
    ShouldWait tmDisabled = (false, 0) :=
  C4_shouldWait_threshold_invariant tmDisabled (Or.inl rfl)

/-- Claim C7 counterexample: on a body that does not parse as JSON,
UpdateFromResponse returns early, so lastUpdate is not stamped with the
current time, contrary to the always-stamps clause of the claim. -/
theorem C7_counterexample :
    ¬ ((UpdateFromResponse tmBurst 5 none).1.lastUpdate = 5) := by
  decide

/-- Claim C7 as amended: on every byte sequence that does not parse as
JSON, UpdateFromResponse returns an error without panicking and leaves the
whole state unchanged — tokensLeft, refillRate, refillIn and also
lastUpdate, which is not stamped on the early-error path. -/
theorem C7_malformed_update_frame (tm : TokenManager) (now : Int) :
    UpdateFromResponse tm now none = (tm, some "failed to parse response") :=
  rfl

/-- Claim C8 counterexample: a TokenManagerConfig with EnableRateLimit
unset (the Go zero value false) yields a manager with rate limiting
disabled, not the claimed default of true. -/
theorem C8_counterexample :
    ¬ ((NewTokenManager
        { MinTokensThreshold := 0, MaxWaitTime := 0, EnableRateLimit := false } 0).enableRateLimit
      = true) := by
  decide

/-- Claim C8 as amended: NewTokenManager defaults MinTokensThreshold to 5
and MaxWaitTime to 60 minutes when unset, and NewClient defaults the
request timeout to 30 seconds when unset, but NewTokenManager applies no
default to EnableRateLimit: the configured value is passed through, so an
unset value stays false (the true default lives in the excluded
config-loading collaborator). -/
theorem C8_constructor_defaults (now : Int) (b : Bool) (ccfg : Config) :
    (NewTokenManager { MinTokensThreshold := 0, MaxWaitTime := 0, EnableRateLimit := b } now).minTokensThreshold = 5
    ∧ (NewTokenManager { MinTokensThreshold := 0, MaxWaitTime := 0, EnableRateLimit := b } now).maxWaitTime = 60 * minute
    ∧ (NewTokenManager { MinTokensThreshold := 0, MaxWaitTime := 0, EnableRateLimit := b } now).enableRateLimit = b
    ∧ (NewClient { ccfg with Timeout := 0 }).timeout = 30 * second := by
  refine ⟨rfl, rfl, rfl, ?_⟩
  simp [NewClient]

/-- Claim C5 counterexample: with maxWaitTime configured to one
millisecond, ShouldWait still raises the wait to one second (the one-second
floor is applied after the maxWaitTime cap), so the returned duration
exceeds maxWaitTime. -/
theorem C5_counterexample :
    (ShouldWait tmShortMax).1 = true ∧
      ¬ ((ShouldWait tmShortMax).2 ≤ tmShortMax.maxWaitTime) := by
  decide

/-- Claim C5 as amended: whenever ShouldWait returns (true, d), d is at
least one second, and d is at most maxWaitTime provided maxWaitTime is at
least one second — the one-second floor is applied after the maxWaitTime
cap, so for a sub-second maxWaitTime the duration is one second, above the
cap. -/
theorem C5_wait_duration_bounds (tm : TokenManager) (d : Int)
    (h : ShouldWait tm = (true, d)) :
    second ≤ d ∧ (second ≤ tm.maxWaitTime → d ≤ tm.maxWaitTime) := by
  unfold ShouldWait at h
  by_cases he : tm.enableRateLimit = true
  · by_cases hl : tm.tokensLeft < tm.minTokensThreshold
    · simp only [he, hl, Bool.not_true, Bool.false_eq_true, if_false, if_true,
        if_pos, Prod.mk.injEq, true_and] at h
      constructor
      · split_ifs at h <;> omega
      · intro hmax
        split_ifs at h <;> omega
    · simp [he, hl] at h
  · simp [he] at h

/-- Witness for C5 at a state needing a five-second wait under the default
sixty-minute maxWaitTime. -/
theorem C5_wait_duration_bounds_witness :
    second ≤ 5 * second ∧
      (second ≤ tmLow.maxWaitTime → 5 * second ≤ tmLow.maxWaitTime) :=
  C5_wait_duration_bounds tmLow (5 * second) (by decide)

/-- Batteries Rat.floor agrees with the Mathlib integer floor. -/
lemma ratFloor_eq_intFloor (q : ℚ) : q.floor = ⌊q⌋ := by
  rw [Rat.floor_def', Rat.floor_def]

/-- Rounding to the nearest integer never moves a value down by more than
a half. -/
lemma rne_ge (y : ℚ) : y - 1/2 ≤ (rne y : ℚ) := by
  have h1 : ((y.floor : ℚ)) ≤ y := by
    rw [ratFloor_eq_intFloor]
    exact_mod_cast Int.floor_le y
  have h2 : y < y.floor + 1 := by
    rw [ratFloor_eq_intFloor]
    exact_mod_cast Int.lt_floor_add_one y
  simp only [rne]
  split_ifs <;> push_cast <;> linarith

/-- Rounding to the nearest integer never moves a value up by more than a
half. -/
lemma rne_le (y : ℚ) : (rne y : ℚ) ≤ y + 1/2 := by
  have h1 : ((y.floor : ℚ)) ≤ y := by
    rw [ratFloor_eq_intFloor]
    exact_mod_cast Int.floor_le y
  have h2 : y < y.floor + 1 := by
    rw [ratFloor_eq_intFloor]
    exact_mod_cast Int.lt_floor_add_one y
  simp only [rne]
  split_ifs <;> push_cast <;> linarith

/-- Rounding to the nearest integer fixes integers. -/
lemma rne_intCast (n : Int) : rne ((n : ℚ)) = n := by
  simp only [rne, ratFloor_eq_intFloor, Int.floor_intCast]
  norm_num

/-- Specification of ilog2: it is the floor of the base-two logarithm of a
positive rational. -/
lemma ilog2_spec (q : ℚ) (hq : 0 < q) :
    (2:ℚ) ^ ilog2 q ≤ q ∧ q < (2:ℚ) ^ (ilog2 q + 1) := by
  have hnum : 0 < q.num := Rat.num_pos.mpr hq
  have hden : 0 < q.den := q.pos
  set a : ℕ := q.num.toNat with ha
  set b : ℕ := q.den with hb
  have ha0 : a ≠ 0 := by omega
  have hb0 : b ≠ 0 := by omega
  set la : ℕ := Nat.log2 a with hla
  set lb : ℕ := Nat.log2 b with hlb
  have hA1 : 2 ^ la ≤ a := by
    rw [hla, Nat.log2_eq_log_two]
    exact Nat.pow_log_le_self 2 ha0
  have hA2 : a < 2 ^ (la + 1) := by
    rw [hla, Nat.log2_eq_log_two]
    exact Nat.lt_pow_succ_log_self (by norm_num) a
  have hB1 : 2 ^ lb ≤ b := by
    rw [hlb, Nat.log2_eq_log_two]
    exact Nat.pow_log_le_self 2 hb0
  have hB2 : b < 2 ^ (lb + 1) := by
    rw [hlb, Nat.log2_eq_log_two]
    exact Nat.lt_pow_succ_log_self (by norm_num) b
  have hq_eq : q = (a : ℚ) / (b : ℚ) := by
    rw [ha, hb]
    rw [show ((q.num.toNat : ℕ) : ℚ) = ((q.num : ℤ) : ℚ) by
      exact_mod_cast congrArg (fun z => ((z : ℤ) : ℚ)) (Int.toNat_of_nonneg hnum.le)]
    exact (Rat.num_div_den q).symm
  have hbQ : (0:ℚ) < (b : ℚ) := by positivity
  have haQ : (0:ℚ) < (a : ℚ) := by
    have : 0 < a := by omega
    positivity
  -- strict double bracket around the uncorrected guess
  have hupper : q < (2:ℚ) ^ ((la : Int) - lb + 1) := by
    have h1 : (a : ℚ) < (2:ℚ) ^ ((la : Int) + 1) := by
      rw [show ((la : Int) + 1) = ((la + 1 : ℕ) : Int) by push_cast; ring, zpow_natCast]
      exact_mod_cast hA2
    have h2 : (2:ℚ) ^ ((lb : Int)) ≤ (b : ℚ) := by
      rw [zpow_natCast]
      exact_mod_cast hB1
    rw [hq_eq, div_lt_iff hbQ]
    calc (a : ℚ) < (2:ℚ) ^ ((la : Int) + 1) := h1
      _ = (2:ℚ) ^ ((la : Int) - lb + 1) * (2:ℚ) ^ ((lb : Int)) := by
          rw [← zpow_add₀ (two_ne_zero)]
          congr 1
          ring
      _ ≤ (2:ℚ) ^ ((la : Int) - lb + 1) * (b : ℚ) := by
          apply mul_le_mul_of_nonneg_left h2
          positivity
  have hlower : (2:ℚ) ^ ((la : Int) - lb - 1) < q := by
    have h1 : (2:ℚ) ^ ((la : Int)) ≤ (a : ℚ) := by
      rw [zpow_natCast]
      exact_mod_cast hA1
    have h2 : (b : ℚ) < (2:ℚ) ^ ((lb : Int) + 1) := by
      rw [show ((lb : Int) + 1) = ((lb + 1 : ℕ) : Int) by push_cast; ring, zpow_natCast]
      exact_mod_cast hB2
    rw [hq_eq, lt_div_iff hbQ]
    calc (2:ℚ) ^ ((la : Int) - lb - 1) * (b : ℚ)
        < (2:ℚ) ^ ((la : Int) - lb - 1) * (2:ℚ) ^ ((lb : Int) + 1) := by
          apply mul_lt_mul_of_pos_left h2
          positivity
      _ = (2:ℚ) ^ ((la : Int)) := by
          rw [← zpow_add₀ (two_ne_zero)]
          congr 1
          ring
      _ ≤ (a : ℚ) := h1
  -- the definition picks g or g - 1
  simp only [ilog2, ← ha, ← hb, ← hla, ← hlb]
  by_cases hlt : q < (2:ℚ) ^ ((la : Int) - lb)
  · rw [if_pos hlt]
    refine ⟨hlower.le, ?_⟩
    rw [show ((la : Int) - lb - 1 + 1) = (la : Int) - lb by ring]
    exact hlt
  · rw [if_neg hlt]
    exact ⟨not_lt.mp hlt, hupper⟩

/-- Half-ulp error bound of the float64 rounding: a positive value is
changed by at most a 2 to the minus 53 relative error. -/
lemma roundFloatPos_bounds (q : ℚ) (hq : 0 < q) :
    q * (1 - 1/2^53) ≤ roundFloatPos q ∧ roundFloatPos q ≤ q * (1 + 1/2^53) := by
  obtain ⟨hs1, _⟩ := ilog2_spec q hq
  set e : Int := ilog2 q - 52 with he
  have h2e : (0:ℚ) < (2:ℚ) ^ e := zpow_pos (by norm_num) e
  have hval : roundFloatPos q = ((rne (q / (2:ℚ) ^ e) : Int) : ℚ) * (2:ℚ) ^ e := rfl
  have hr1 := rne_ge (q / (2:ℚ) ^ e)
  have hr2 := rne_le (q / (2:ℚ) ^ e)
  have hqe : q / (2:ℚ) ^ e * (2:ℚ) ^ e = q := div_mul_cancel₀ q (ne_of_gt h2e)
  have hsmall : (2:ℚ) ^ e * 4503599627370496 ≤ q := by
    have hsum : (2:ℚ) ^ e * (2:ℚ) ^ ((52:ℕ) : Int) = (2:ℚ) ^ (ilog2 q) := by
      rw [← zpow_add₀ (two_ne_zero)]
      congr 1
      rw [he]
      push_cast
      ring
    have h52 : ((2:ℚ) ^ ((52:ℕ) : Int)) = 4503599627370496 := by
      rw [zpow_natCast]
      norm_num
    calc (2:ℚ) ^ e * 4503599627370496 = (2:ℚ) ^ (ilog2 q) := by rw [← hsum, h52]
      _ ≤ q := hs1
  constructor
  · have hmul := mul_le_mul_of_nonneg_right hr1 h2e.le
    rw [sub_mul, hqe] at hmul
    rw [hval]
    nlinarith [hmul, hsmall, h2e.le]
  · have hmul := mul_le_mul_of_nonneg_right hr2 h2e.le
    rw [add_mul, hqe] at hmul
    rw [hval]
    nlinarith [hmul, hsmall, h2e.le]

/-- roundFloat agrees with roundFloatPos on positive inputs. -/
lemma roundFloat_of_pos (q : ℚ) (hq : 0 < q) : roundFloat q = roundFloatPos q := by
  rw [roundFloat, if_neg (ne_of_gt hq), if_neg (not_lt.mpr hq.le)]

/-- Half-ulp error bound of roundFloat on positive inputs. -/
lemma roundFloat_bounds_of_pos (q : ℚ) (hq : 0 < q) :
    q * (1 - 1/2^53) ≤ roundFloat q ∧ roundFloat q ≤ q * (1 + 1/2^53) := by
  rw [roundFloat_of_pos q hq]
  exact roundFloatPos_bounds q hq

/-- roundFloatPos fixes dyadic rationals whose significand is positive and
below 2 to the 53: these are exactly representable as float64 values. -/
lemma roundFloatPos_eq_self (m k : Int) (h1 : 0 < m) (h2 : m < 2 ^ 53) :
    roundFloatPos ((m : ℚ) * (2:ℚ) ^ k) = (m : ℚ) * (2:ℚ) ^ k := by
  set q : ℚ := (m : ℚ) * (2:ℚ) ^ k with hqdef
  have hmQ : (0:ℚ) < (m : ℚ) := by exact_mod_cast h1
  have hq : 0 < q := mul_pos hmQ (zpow_pos (by norm_num) k)
  obtain ⟨hs1, _⟩ := ilog2_spec q hq
  set e : Int := ilog2 q - 52 with he
  have h2e : (0:ℚ) < (2:ℚ) ^ e := zpow_pos (by norm_num) e
  have hke : e ≤ k := by
    by_contra hcon
    push_neg at hcon
    have hq53 : q < (2:ℚ) ^ (k + 53) := by
      have hm53 : (m : ℚ) < (2:ℚ) ^ ((53:ℕ)) := by exact_mod_cast h2
      calc q = (m:ℚ) * (2:ℚ) ^ k := rfl
        _ < (2:ℚ) ^ ((53:ℕ)) * (2:ℚ) ^ k :=
            mul_lt_mul_of_pos_right hm53 (zpow_pos (by norm_num) k)
        _ = (2:ℚ) ^ (k + 53) := by
            rw [← zpow_natCast (2:ℚ) 53, ← zpow_add₀ (two_ne_zero)]
            congr 1
            ring
    have hmono : (2:ℚ) ^ (k + 53) ≤ (2:ℚ) ^ (ilog2 q) := by
      apply zpow_le_zpow_right₀ (by norm_num)
      omega
    linarith [hs1]
  have hd : 0 ≤ k - e := by omega
  have hyint : q / (2:ℚ) ^ e = ((m * 2 ^ (k - e).toNat : Int) : ℚ) := by
    rw [eq_comm]
    push_cast
    rw [← zpow_natCast (2:ℚ) ((k - e).toNat), Int.toNat_of_nonneg hd, hqdef,
      mul_div_assoc, ← zpow_sub₀ (two_ne_zero)]
  have hval : roundFloatPos q = ((rne (q / (2:ℚ) ^ e) : Int) : ℚ) * (2:ℚ) ^ e := rfl
  rw [hval, hyint, rne_intCast, ← hyint, div_mul_cancel₀ q (ne_of_gt h2e)]

/-- roundFloat fixes positive dyadic rationals with a small significand. -/
lemma roundFloat_eq_self_dyadic (m k : Int) (h1 : 0 < m) (h2 : m < 2 ^ 53) :
    roundFloat ((m : ℚ) * (2:ℚ) ^ k) = (m : ℚ) * (2:ℚ) ^ k := by
  have hq : (0:ℚ) < (m : ℚ) * (2:ℚ) ^ k :=
    mul_pos (by exact_mod_cast h1) (zpow_pos (by norm_num) k)
  rw [roundFloat_of_pos _ hq]
  exact roundFloatPos_eq_self m k h1 h2

/-- Go conversion int to float64 is exact up to 2 to the 53. -/
lemma floatOfInt_eq_self (n : Int) (h1 : 0 ≤ n) (h2 : n ≤ 2 ^ 53) :
    floatOfInt n = (n : ℚ) := by
  rcases eq_or_lt_of_le h1 with h0 | hpos
  · rw [floatOfInt, ← h0]
    norm_num [roundFloat]
  · rcases eq_or_lt_of_le h2 with h53 | hlt
    · subst h53
      rw [floatOfInt]
      have hrepr : (((2:Int) ^ 53 : Int) : ℚ) = ((2 ^ 52 : Int) : ℚ) * (2:ℚ) ^ (1 : Int) := by
        push_cast
        rw [zpow_one]
        norm_num
      rw [hrepr, roundFloat_eq_self_dyadic (2 ^ 52) 1 (by norm_num) (by norm_num)]
    · rw [floatOfInt]
      have hrepr : ((n : Int) : ℚ) = ((n : Int) : ℚ) * (2:ℚ) ^ (0 : Int) := by
        rw [zpow_zero, mul_one]
      rw [hrepr, roundFloat_eq_self_dyadic n 0 hpos hlt, ← hrepr]

/-- Claim C6 counterexample: one token short of a threshold of five with a
refill rate of two per minute and an expired refillIn, the float64
computation is exact and the pre-clamp wait is half a minute (thirty
seconds), not the claimed ceiling of one whole minute. -/
theorem C6_counterexample :
    (tmHalfMinute.enableRateLimit = true ∧
      tmHalfMinute.tokensLeft < tmHalfMinute.minTokensThreshold ∧
      tmHalfMinute.refillIn < second ∧ 0 < tmHalfMinute.refillRate) ∧
    estimatedWaitTime tmHalfMinute ≠
      ⌈((tmHalfMinute.minTokensThreshold - tmHalfMinute.tokensLeft : Int) : ℚ) /
        ((tmHalfMinute.refillRate : Int) : ℚ)⌉ * minute := by
  refine ⟨⟨rfl, by decide, by decide, by decide⟩, ?_⟩
  have hfe : tmHalfMinute.minTokensThreshold - tmHalfMinute.tokensLeft = (1 : Int) := by
    decide
  have hfr : tmHalfMinute.refillRate = (2 : Int) := rfl
  have hval : estimatedWaitTime tmHalfMinute =
      goIntOfFloat (fmul (fdiv (floatOfInt 1) (floatOfInt 2)) (floatOfInt minute)) := by
    simp only [estimatedWaitTime]
    rw [if_pos (⟨by decide, by decide⟩ :
      tmHalfMinute.refillIn < second ∧ 0 < tmHalfMinute.refillRate), hfe, hfr,
      if_pos (by norm_num : (0:Int) < 1)]
  have h1f : floatOfInt 1 = ((1 : Int) : ℚ) := floatOfInt_eq_self 1 (by norm_num) (by norm_num)
  have h2f : floatOfInt 2 = ((2 : Int) : ℚ) := floatOfInt_eq_self 2 (by norm_num) (by norm_num)
  have hMf : floatOfInt minute = ((minute : Int) : ℚ) :=
    floatOfInt_eq_self minute (by norm_num [minute]) (by norm_num [minute])
  have hdivv : fdiv ((1 : Int) : ℚ) ((2 : Int) : ℚ) = (1/2 : ℚ) := by
    rw [fdiv]
    have hq : ((1 : Int) : ℚ) / ((2 : Int) : ℚ) = ((1 : Int) : ℚ) * (2:ℚ) ^ (-1 : Int) := by
      push_cast
      rw [zpow_neg, zpow_one]
      norm_num
    rw [hq, roundFloat_eq_self_dyadic 1 (-1) (by norm_num) (by norm_num)]
    push_cast
    rw [zpow_neg, zpow_one]
    norm_num
  have hmulv : fmul ((1/2 : ℚ)) ((minute : Int) : ℚ) = ((30000000000 : Int) : ℚ) := by
    rw [fmul]
    have hq : (1/2 : ℚ) * ((minute : Int) : ℚ) = ((30000000000 : Int) : ℚ) * (2:ℚ) ^ (0 : Int) := by
      rw [zpow_zero, mul_one]
      norm_num [minute]
    rw [hq, roundFloat_eq_self_dyadic 30000000000 0 (by norm_num) (by norm_num),
      zpow_zero, mul_one]
  have hgif : goIntOfFloat (((30000000000 : Int)) : ℚ) = 30000000000 := by
    rw [goIntOfFloat_eq_floor _ (by norm_num)]
    exact Int.floor_intCast 30000000000
  have hceil : ⌈((tmHalfMinute.minTokensThreshold - tmHalfMinute.tokensLeft : Int) : ℚ) /
      ((tmHalfMinute.refillRate : Int) : ℚ)⌉ = (1 : Int) := by
    rw [hfe, hfr]
    push_cast
    rw [Int.ceil_eq_iff] <;> norm_num
  rw [hval, h1f, h2f, hMf, hdivv, hmulv, hgif, hceil]
  norm_num [minute]

/-- Claim C6 as amended: whenever ShouldWait decides a wait is needed with
refillIn below one second and refillRate positive (and the integer inputs
within the float64 exact-conversion range up to 2 to the 53), the wait
computed before clamping is the float64 evaluation of tokensNeeded /
refillRate minutes truncated to integer nanoseconds: it lies within a
relative error of 2 to the minus 51 of exact fractional minutes (minus the
sub-nanosecond truncation) — fractional minutes, not the ceiling of the
quotient in whole minutes. -/
theorem C6_estimate_float_bounds (tm : TokenManager)
    (h0 : tm.enableRateLimit = true)
    (h3 : tm.tokensLeft < tm.minTokensThreshold)
    (h1 : tm.refillIn < second) (h2 : 0 < tm.refillRate)
    (hbn : tm.minTokensThreshold - tm.tokensLeft ≤ 2 ^ 53)
    (hbr : tm.refillRate ≤ 2 ^ 53) :
    (((tm.minTokensThreshold - tm.tokensLeft) * minute : Int) : ℚ)
        / ((tm.refillRate : Int) : ℚ) * (1 - 1/2^51) - 1
      < (estimatedWaitTime tm : ℚ)
    ∧ (estimatedWaitTime tm : ℚ)
      ≤ (((tm.minTokensThreshold - tm.tokensLeft) * minute : Int) : ℚ)
        / ((tm.refillRate : Int) : ℚ) * (1 + 1/2^51) := by
  have hn : (0:Int) < tm.minTokensThreshold - tm.tokensLeft := by omega
  have hval : estimatedWaitTime tm =
      goIntOfFloat (fmul (fdiv (floatOfInt (tm.minTokensThreshold - tm.tokensLeft))
        (floatOfInt tm.refillRate)) (floatOfInt minute)) := by
    simp only [estimatedWaitTime]
    rw [if_pos ⟨h1, h2⟩, if_pos hn]
  rw [hval, floatOfInt_eq_self _ hn.le hbn, floatOfInt_eq_self _ h2.le hbr,
    floatOfInt_eq_self minute (by norm_num [minute]) (by norm_num [minute])]
  set nQ : ℚ := ((tm.minTokensThreshold - tm.tokensLeft : Int) : ℚ) with hnQ
  set bQ : ℚ := ((tm.refillRate : Int) : ℚ) with hbQ
  set MQ : ℚ := ((minute : Int) : ℚ) with hMQ
  have hnQ0 : 0 < nQ := by
    rw [hnQ]
    exact_mod_cast hn
  have hbQ0 : 0 < bQ := by
    rw [hbQ]
    exact_mod_cast h2
  have hMQ0 : 0 < MQ := by
    rw [hMQ]
    norm_num [minute]
  have hr0 : 0 < nQ / bQ := div_pos hnQ0 hbQ0
  have hd : nQ / bQ * (1 - 1/2^53) ≤ fdiv nQ bQ
      ∧ fdiv nQ bQ ≤ nQ / bQ * (1 + 1/2^53) :=
    roundFloat_bounds_of_pos (nQ / bQ) hr0
  have hmF0 : 0 < fdiv nQ bQ := by
    have hpos : (0:ℚ) < nQ / bQ * (1 - 1/2^53) := mul_pos hr0 (by norm_num)
    exact lt_of_lt_of_le hpos hd.1
  have hu0 : 0 < fdiv nQ bQ * MQ := mul_pos hmF0 hMQ0
  have hp : fdiv nQ bQ * MQ * (1 - 1/2^53) ≤ fmul (fdiv nQ bQ) MQ
      ∧ fmul (fdiv nQ bQ) MQ ≤ fdiv nQ bQ * MQ * (1 + 1/2^53) :=
    roundFloat_bounds_of_pos (fdiv nQ bQ * MQ) hu0
  have hup : fmul (fdiv nQ bQ) MQ ≤ nQ / bQ * MQ * (1 + 1/2^51) := by
    have s2 : fdiv nQ bQ * MQ * (1 + 1/2^53)
        ≤ nQ/bQ * (1 + 1/2^53) * MQ * (1 + 1/2^53) := by
      have hfac : (0:ℚ) ≤ MQ * (1 + 1/2^53) := by positivity
      calc fdiv nQ bQ * MQ * (1 + 1/2^53)
          = fdiv nQ bQ * (MQ * (1 + 1/2^53)) := by ring
        _ ≤ nQ/bQ * (1 + 1/2^53) * (MQ * (1 + 1/2^53)) :=
            mul_le_mul_of_nonneg_right hd.2 hfac
        _ = nQ/bQ * (1 + 1/2^53) * MQ * (1 + 1/2^53) := by ring
    have s3 : nQ/bQ * (1 + 1/2^53) * MQ * (1 + 1/2^53)
        ≤ nQ/bQ * MQ * (1 + 1/2^51) := by
      have h49 : ((1:ℚ) + 1/2^53) * (1 + 1/2^53) ≤ 1 + 1/2^51 := by norm_num
      calc nQ/bQ * (1 + 1/2^53) * MQ * (1 + 1/2^53)
          = (nQ/bQ * MQ) * ((1 + 1/2^53) * (1 + 1/2^53)) := by ring
        _ ≤ (nQ/bQ * MQ) * (1 + 1/2^51) :=
            mul_le_mul_of_nonneg_left h49 (by positivity)
        _ = nQ/bQ * MQ * (1 + 1/2^51) := by ring
    linarith [hp.2]
  have hlow : nQ / bQ * MQ * (1 - 1/2^51) ≤ fmul (fdiv nQ bQ) MQ := by
    have s2 : nQ/bQ * (1 - 1/2^53) * MQ * (1 - 1/2^53)
        ≤ fdiv nQ bQ * MQ * (1 - 1/2^53) := by
      have hfac : (0:ℚ) ≤ MQ * (1 - 1/2^53) := by
        apply mul_nonneg hMQ0.le
        norm_num
      calc nQ/bQ * (1 - 1/2^53) * MQ * (1 - 1/2^53)
          = nQ/bQ * (1 - 1/2^53) * (MQ * (1 - 1/2^53)) := by ring
        _ ≤ fdiv nQ bQ * (MQ * (1 - 1/2^53)) :=
            mul_le_mul_of_nonneg_right hd.1 hfac
        _ = fdiv nQ bQ * MQ * (1 - 1/2^53) := by ring
    have s3 : nQ/bQ * MQ * (1 - 1/2^51)
        ≤ nQ/bQ * (1 - 1/2^53) * MQ * (1 - 1/2^53) := by
      have h49 : (1:ℚ) - 1/2^51 ≤ (1 - 1/2^53) * (1 - 1/2^53) := by norm_num
      calc nQ/bQ * MQ * (1 - 1/2^51)
          = (nQ/bQ * MQ) * (1 - 1/2^51) := by ring
        _ ≤ (nQ/bQ * MQ) * ((1 - 1/2^53) * (1 - 1/2^53)) :=
            mul_le_mul_of_nonneg_left h49 (by positivity)
        _ = nQ/bQ * (1 - 1/2^53) * MQ * (1 - 1/2^53) := by ring
    linarith [hp.1]
  have hpF0 : (0:ℚ) ≤ fmul (fdiv nQ bQ) MQ := by
    have hpos : (0:ℚ) < nQ / bQ * MQ * (1 - 1/2^51) := by
      apply mul_pos (mul_pos hr0 hMQ0)
      norm_num
    linarith
  rw [goIntOfFloat_eq_floor _ hpF0]
  have hx : (((tm.minTokensThreshold - tm.tokensLeft) * minute : Int) : ℚ) / bQ
      = nQ / bQ * MQ := by
    rw [hnQ, hMQ]
    push_cast
    ring
  rw [hx]
  constructor
  · have hfl := Int.sub_one_lt_floor (fmul (fdiv nQ bQ) MQ)
    linarith
  · have hfl := Int.floor_le (fmul (fdiv nQ bQ) MQ)
    linarith

/-- Witness for the amended C6 at the half-minute state: the program value
(thirty seconds) satisfies the float64 error envelope around exact
fractional minutes. -/
theorem C6_estimate_float_bounds_witness :
    (((tmHalfMinute.minTokensThreshold - tmHalfMinute.tokensLeft) * minute : Int) : ℚ)
        / ((tmHalfMinute.refillRate : Int) : ℚ) * (1 - 1/2^51) - 1
      < (estimatedWaitTime tmHalfMinute : ℚ)
    ∧ (estimatedWaitTime tmHalfMinute : ℚ)
      ≤ (((tmHalfMinute.minTokensThreshold - tmHalfMinute.tokensLeft) * minute : Int) : ℚ)
        / ((tmHalfMinute.refillRate : Int) : ℚ) * (1 + 1/2^51) :=
  C6_estimate_float_bounds tmHalfMinute rfl (by decide) (by decide) (by decide)
    (by decide) (by decide)

/-- Characterization of UpdateFromResponse on a body that parses as an
object: never an error, each of the three token fields taken from the body
when present as a number and kept otherwise, lastUpdate stamped. -/
lemma UpdateFromResponse_some (tm : TokenManager) (now : Int)
    (flds : List (String × Jval)) :
    UpdateFromResponse tm now (some flds) =
      ({ tm with
          refillRate := numFieldOr flds "refillRate" tm.refillRate
          refillIn := numFieldScaledOr flds "refillIn" millisecond tm.refillIn
          tokensLeft := numFieldOr flds "tokensLeft" tm.tokensLeft
          lastUpdate := now }, none) := by
  simp only [UpdateFromResponse, numFieldOr, numFieldScaledOr]
  rcases flds.lookup "refillRate" with _ | j1 <;>
    rcases flds.lookup "refillIn" with _ | j2 <;>
      rcases flds.lookup "tokensLeft" with _ | j3 <;>
        (try cases j1) <;> (try cases j2) <;> (try cases j3) <;> rfl

/-- Characterization of the 429-path token update on a body that parses as
an object: ParseTokenInfoFromResponse succeeds, so UpdateFromTokenInfo
overwrites all three token fields, zero-defaulting any absent one. -/
lemma handle429TokenUpdate_some (tm : TokenManager) (now : Int)
    (flds : List (String × Jval)) :
    handle429TokenUpdate tm now (some flds) =
      { tm with
          tokensLeft := numFieldOr flds "tokensLeft" 0
          refillRate := numFieldOr flds "refillRate" 0
          refillIn := numFieldOr flds "refillIn" 0 * millisecond
          lastUpdate := now } := by
  simp only [handle429TokenUpdate, ParseTokenInfoFromResponse, UpdateFromTokenInfo,
    parseIntField, numFieldOr]

/-- Claim C1 counterexample: on the empty JSON object (a body that parses
as a top-level object with all three token fields absent), the 429-path
update overwrites tokensLeft with zero instead of leaving it unchanged. -/
theorem C1_counterexample :
    ¬ ((handle429TokenUpdate tmBurst 7 (some [])).tokensLeft
        = tmBurst.tokensLeft) := by
  decide

/-- Claim C1 as amended: for every body that parses as a top-level JSON
object, the success-path UpdateFromResponse copies each of tokensLeft,
refillRate, refillIn exactly when the field is present as a number and
leaves it unchanged when absent; the 429 path through
ParseTokenInfoFromResponse and UpdateFromTokenInfo instead overwrites all
three fields unconditionally, writing zero for any field absent from the
body. -/
theorem C1_token_update_presence_frame (tm : TokenManager) (now : Int)
    (flds : List (String × Jval)) :
    ((UpdateFromResponse tm now (some flds)).2 = none)
    ∧ (flds.lookup "tokensLeft" = none →
        (UpdateFromResponse tm now (some flds)).1.tokensLeft = tm.tokensLeft)
    ∧ (∀ q, flds.lookup "tokensLeft" = some (Jval.num q) →
        (UpdateFromResponse tm now (some flds)).1.tokensLeft = goIntOfFloat q)
    ∧ (flds.lookup "refillRate" = none →
        (UpdateFromResponse tm now (some flds)).1.refillRate = tm.refillRate)
    ∧ (∀ q, flds.lookup "refillRate" = some (Jval.num q) →
        (UpdateFromResponse tm now (some flds)).1.refillRate = goIntOfFloat q)
    ∧ (flds.lookup "refillIn" = none →
        (UpdateFromResponse tm now (some flds)).1.refillIn = tm.refillIn)
    ∧ (∀ q, flds.lookup "refillIn" = some (Jval.num q) →
        (UpdateFromResponse tm now (some flds)).1.refillIn
          = goIntOfFloat q * millisecond)
    ∧ (flds.lookup "tokensLeft" = none →
        (handle429TokenUpdate tm now (some flds)).tokensLeft = 0)
    ∧ (flds.lookup "refillRate" = none →
        (handle429TokenUpdate tm now (some flds)).refillRate = 0)
    ∧ (flds.lookup "refillIn" = none →
        (handle429TokenUpdate tm now (some flds)).refillIn = 0) := by
  refine ⟨?_, ?_, ?_, ?_, ?_, ?_, ?_, ?_, ?_, ?_⟩
  · rw [UpdateFromResponse_some]
  · intro h
    rw [UpdateFromResponse_some]
    simp [numFieldOr, h]
  · intro q h
    rw [UpdateFromResponse_some]
    simp [numFieldOr, h]
  · intro h
    rw [UpdateFromResponse_some]
    simp [numFieldOr, h]
  · intro q h
    rw [UpdateFromResponse_some]
    simp [numFieldOr, h]
  · intro h
    rw [UpdateFromResponse_some]
    simp [numFieldScaledOr, h]
  · intro q h
    rw [UpdateFromResponse_some]
    simp [numFieldScaledOr, h]
  · intro h
    rw [handle429TokenUpdate_some]
    simp [numFieldOr, h]
  · intro h
    rw [handle429TokenUpdate_some]
    simp [numFieldOr, h]
  · intro h
    rw [handle429TokenUpdate_some]
    simp [numFieldOr, h]

/-- Witness for the amended C1: with a body carrying only tokensLeft 42,
the success path copies tokensLeft, keeps refillRate, and the 429 path
zero-defaults the absent refillRate. -/
theorem C1_token_update_presence_frame_witness :
    (UpdateFromResponse tmBurst 9 (some [("tokensLeft", Jval.num 42)])).1.tokensLeft
        = goIntOfFloat 42
    ∧ (UpdateFromResponse tmBurst 9 (some [("tokensLeft", Jval.num 42)])).1.refillRate
        = tmBurst.refillRate
    ∧ (handle429TokenUpdate tmBurst 9 (some [("tokensLeft", Jval.num 42)])).refillRate
        = 0 := by
  have T := C1_token_update_presence_frame tmBurst 9 [("tokensLeft", Jval.num 42)]
  exact ⟨T.2.2.1 42 rfl, T.2.2.2.1 rfl, T.2.2.2.2.2.2.2.2.1 rfl⟩

/-- Claim C9: on a client whose access key is the empty string, every call
to DoRequest, PostRawData or PostRawDataWithParams returns an error before
any HTTP request goes out: the outcome is an error raised during request
preparation (URL building or the access-key check), zero requests are
sent, and no send event appears in the trace. -/
theorem C9_missing_access_key_fails_fast (urlOk : String → String → Bool)
    (marshalOk : Bool) (c : Client) (endpoint : String)
    (params : List (String × String)) (now : Int) (responses : List NetResult)
    (h : c.accessKey = "") :
    (((DoRequest urlOk c endpoint params now responses).outcome
          = ReqOutcome.fail ApiError.buildURL
        ∨ (DoRequest urlOk c endpoint params now responses).outcome
          = ReqOutcome.fail ApiError.missingAccessKey)
      ∧ (DoRequest urlOk c endpoint params now responses).sent = 0
      ∧ Ev.send ∉ (DoRequest urlOk c endpoint params now responses).events)
    ∧ (((PostRawData urlOk marshalOk c endpoint now responses).outcome
          = ReqOutcome.fail ApiError.buildURL
        ∨ (PostRawData urlOk marshalOk c endpoint now responses).outcome
          = ReqOutcome.fail ApiError.missingAccessKey)
      ∧ (PostRawData urlOk marshalOk c endpoint now responses).sent = 0
      ∧ Ev.send ∉ (PostRawData urlOk marshalOk c endpoint now responses).events)
    ∧ (((PostRawDataWithParams urlOk marshalOk c endpoint params now responses).outcome
          = ReqOutcome.fail ApiError.buildURL
        ∨ (PostRawDataWithParams urlOk marshalOk c endpoint params now responses).outcome
          = ReqOutcome.fail ApiError.missingAccessKey)
      ∧ (PostRawDataWithParams urlOk marshalOk c endpoint params now responses).sent = 0
      ∧ Ev.send ∉ (PostRawDataWithParams urlOk marshalOk c endpoint params now responses).events) := by
  by_cases hu : urlOk c.baseURL endpoint = false <;>
    rcases hc : c.tokenManager with _ | tm <;>
      rcases responses with _ | ⟨hd, rest⟩ <;>
        (try cases hd) <;>
          refine ⟨⟨?_, ?_, ?_⟩, ⟨?_, ?_, ?_⟩, ⟨?_, ?_, ?_⟩⟩ <;>
            simp [DoRequest, PostRawData, PostRawDataWithParams, hu, hc, h]

/-- Witness for C9: the keyless client sends nothing and fails the call. -/
theorem C9_missing_access_key_fails_fast_witness :
    ((DoRequest urlAlwaysOk clientNoKey "product" [] 0 []).outcome
        = ReqOutcome.fail ApiError.buildURL
      ∨ (DoRequest urlAlwaysOk clientNoKey "product" [] 0 []).outcome
        = ReqOutcome.fail ApiError.missingAccessKey)
    ∧ (DoRequest urlAlwaysOk clientNoKey "product" [] 0 []).sent = 0
    ∧ Ev.send ∉ (DoRequest urlAlwaysOk clientNoKey "product" [] 0 []).events :=
  (C9_missing_access_key_fails_fast urlAlwaysOk true clientNoKey "product" [] 0 [] rfl).1

/-- Claim C10: with a nil token manager a 429 is terminal at DoRequest: it
returns the HTTP-status error carrying code 429 (with the Too Many
Requests suffix), leaves token state untouched, sends exactly one request
with no wait, observe or retry, exactly the shape of any other non-2xx
status. -/
theorem C10_429_terminal_without_tokenManager (urlOk : String → String → Bool)
    (c : Client) (endpoint : String) (params : List (String × String))
    (now : Int) (r : HttpResp) (rest : List NetResult)
    (hc : c.tokenManager = none) (hu : urlOk c.baseURL endpoint = true)
    (hk : ¬ c.accessKey = "") (h429 : r.status = 429) :
    DoRequest urlOk c endpoint params now (NetResult.response r :: rest)
      = ⟨ReqOutcome.fail (ApiError.httpStatus 429 true), none, 1, [Ev.send]⟩
    ∧ mentions429 (ApiError.httpStatus 429 true) = true
    ∧ (∀ r2 : HttpResp, ¬ r2.status = 429 → r2.status < 200 ∨ 300 ≤ r2.status →
        DoRequest urlOk c endpoint params now (NetResult.response r2 :: rest)
          = ⟨ReqOutcome.fail (ApiError.httpStatus r2.status false), none, 1, [Ev.send]⟩) := by
  refine ⟨?_, by decide, ?_⟩
  · simp [DoRequest, hu, hk, hc, h429]
  · intro r2 hno hnx
    simp [DoRequest, hu, hk, hc, hno, hnx]

/-- Witness for C10 at the client without a token manager and a scripted
429 response. -/
theorem C10_429_terminal_without_tokenManager_witness :
    DoRequest urlAlwaysOk clientNoTM "product" [] 0 [NetResult.response resp429empty]
      = ⟨ReqOutcome.fail (ApiError.httpStatus 429 true), none, 1, [Ev.send]⟩
    ∧ mentions429 (ApiError.httpStatus 429 true) = true :=
  let T := C10_429_terminal_without_tokenManager urlAlwaysOk clientNoTM "product" [] 0
    resp429empty [] rfl rfl (by decide) rfl
  ⟨T.1, T.2.1⟩

/-- With a configured token manager, DoRequest never returns the
HTTP-status error for 429: the 429 branch always retries instead. -/
lemma DoRequest_no_429_error (urlOk : String → String → Bool) (endpoint : String)
    (params : List (String × String)) (now : Int) :
    ∀ (responses : List NetResult) (c : Client) (tm : TokenManager),
      c.tokenManager = some tm → ∀ (b : Bool),
      (DoRequest urlOk c endpoint params now responses).outcome
        ≠ ReqOutcome.fail (ApiError.httpStatus 429 b) := by
  intro responses
  induction responses with
  | nil =>
    intro c tm hc b
    by_cases hu : urlOk c.baseURL endpoint = false <;>
      by_cases hk : c.accessKey = "" <;>
        simp [DoRequest, hu, hk, hc]
  | cons hd rest ih =>
    intro c tm hc b
    cases hd with
    | transportErr =>
      by_cases hu : urlOk c.baseURL endpoint = false <;>
        by_cases hk : c.accessKey = "" <;>
          simp [DoRequest, hu, hk, hc]
    | response r =>
      by_cases hu : urlOk c.baseURL endpoint = false
      · simp [DoRequest, hu, hc]
      · by_cases hk : c.accessKey = ""
        · simp [DoRequest, hu, hk, hc]
        · by_cases h429 : r.status = 429
          · have hih := ih { c with tokenManager := some (if r.readOk then handle429TokenUpdate tm now r.body else tm) } (if r.readOk then handle429TokenUpdate tm now r.body else tm) rfl b
            simpa [DoRequest, hu, hk, hc, h429] using hih
          · by_cases hnx : r.status < 200 ∨ 300 ≤ r.status <;>
              simp [DoRequest, hu, hk, hc, h429, hnx]

/-- PostRawData never returns the HTTP-status error for 429 — with or
without a token manager, the 429 branch retries unconditionally. -/
lemma PostRawData_no_429_error (urlOk : String → String → Bool)
    (marshalOk : Bool) (endpoint : String) (now : Int) :
    ∀ (responses : List NetResult) (c : Client) (b : Bool),
      (PostRawData urlOk marshalOk c endpoint now responses).outcome
        ≠ ReqOutcome.fail (ApiError.httpStatus 429 b) := by
  intro responses
  induction responses with
  | nil =>
    intro c b
    by_cases hu : urlOk c.baseURL endpoint = false <;>
      by_cases hk : c.accessKey = "" <;>
        by_cases hm : marshalOk = false <;>
          rcases hc : c.tokenManager with _ | tm <;>
            simp [PostRawData, hu, hk, hm, hc]
  | cons hd rest ih =>
    intro c b
    cases hd with
    | transportErr =>
      by_cases hu : urlOk c.baseURL endpoint = false <;>
        by_cases hk : c.accessKey = "" <;>
          by_cases hm : marshalOk = false <;>
            simp [PostRawData, hu, hk, hm]
    | response r =>
      by_cases hu : urlOk c.baseURL endpoint = false
      · simp [PostRawData, hu]
      · by_cases hk : c.accessKey = ""
        · simp [PostRawData, hu, hk]
        · by_cases hm : marshalOk = false
          · simp [PostRawData, hu, hk, hm]
          · by_cases h429 : r.status = 429
            · rcases hc : c.tokenManager with _ | tm <;>
                simpa [PostRawData, hu, hk, hm, hc, h429] using ih _ b
            · by_cases hnx : r.status < 200 ∨ 300 ≤ r.status
              · simp [PostRawData, hu, hk, hm, h429, hnx]
              · by_cases hro : r.readOk = false <;>
                  rcases hc : c.tokenManager with _ | tm <;>
                    simp [PostRawData, hu, hk, hm, hc, h429, hnx, hro]

/-- PostRawDataWithParams never returns the HTTP-status error for 429. -/
lemma PostRawDataWithParams_no_429_error (urlOk : String → String → Bool)
    (marshalOk : Bool) (endpoint : String) (params : List (String × String))
    (now : Int) :
    ∀ (responses : List NetResult) (c : Client) (b : Bool),
      (PostRawDataWithParams urlOk marshalOk c endpoint params now responses).outcome
        ≠ ReqOutcome.fail (ApiError.httpStatus 429 b) := by
  intro responses
  induction responses with
  | nil =>
    intro c b
    by_cases hu : urlOk c.baseURL endpoint = false <;>
      by_cases hk : c.accessKey = "" <;>
        by_cases hm : marshalOk = false <;>
          rcases hc : c.tokenManager with _ | tm <;>
            simp [PostRawDataWithParams, hu, hk, hm, hc]
  | cons hd rest ih =>
    intro c b
    cases hd with
    | transportErr =>
      by_cases hu : urlOk c.baseURL endpoint = false <;>
        by_cases hk : c.accessKey = "" <;>
          by_cases hm : marshalOk = false <;>
            simp [PostRawDataWithParams, hu, hk, hm]
    | response r =>
      by_cases hu : urlOk c.baseURL endpoint = false
      · simp [PostRawDataWithParams, hu]
      · by_cases hk : c.accessKey = ""
        · simp [PostRawDataWithParams, hu, hk]
        · by_cases hm : marshalOk = false
          · simp [PostRawDataWithParams, hu, hk, hm]
          · by_cases h429 : r.status = 429
            · rcases hc : c.tokenManager with _ | tm <;>
                simpa [PostRawDataWithParams, hu, hk, hm, hc, h429] using ih _ b
            · by_cases hnx : r.status < 200 ∨ 300 ≤ r.status
              · simp [PostRawDataWithParams, hu, hk, hm, h429, hnx]
              · by_cases hro : r.readOk = false <;>
                  rcases hc : c.tokenManager with _ | tm <;>
                    simp [PostRawDataWithParams, hu, hk, hm, hc, h429, hnx, hro]

/-- GetRawData on a client with a token manager never surfaces the 429
HTTP-status error: the only error-shaped outcomes it adds to DoRequest are
the read-body failure. -/
lemma GetRawData_no_429_error (urlOk : String → String → Bool)
    (endpoint : String) (params : List (String × String)) (now : Int)
    (responses : List NetResult) (c : Client) (tm : TokenManager)
    (hc : c.tokenManager = some tm) (b : Bool) :
    (GetRawData urlOk c endpoint params now responses).outcome
      ≠ ReqOutcome.fail (ApiError.httpStatus 429 b) := by
  have hD := DoRequest_no_429_error urlOk endpoint params now responses c tm hc b
  rcases hO : (DoRequest urlOk c endpoint params now responses).outcome with r | e | _
  · by_cases hro : r.readOk = false <;>
      rcases hT : (DoRequest urlOk c endpoint params now responses).tokenMgr with _ | tm2 <;>
        simp [GetRawData, hO, hro, hT]
  · rw [hO] at hD
    simp only [GetRawData, hO]
    simpa using hD
  · simp [GetRawData, hO]

/-- The 429 retry loop consumes scripted 429 responses one per cycle and
succeeds on the first 2xx, with one request sent per cycle: there is no
retry ceiling. -/
lemma DoRequest_retry_until_success (urlOk : String → String → Bool)
    (endpoint : String) (params : List (String × String)) (now : Int)
    (r429 rOk : HttpResp) (h429 : r429.status = 429)
    (h2a : 200 ≤ rOk.status) (h2b : rOk.status < 300) :
    ∀ (n : Nat) (c : Client) (tm : TokenManager), c.tokenManager = some tm →
      urlOk c.baseURL endpoint = true → ¬ c.accessKey = "" →
      (DoRequest urlOk c endpoint params now
          (List.replicate n (NetResult.response r429) ++ [NetResult.response rOk])).outcome
        = ReqOutcome.ok rOk
      ∧ (DoRequest urlOk c endpoint params now
          (List.replicate n (NetResult.response r429) ++ [NetResult.response rOk])).sent
        = n + 1 := by
  intro n
  induction n with
  | zero =>
    intro c tm hc hu hk
    have hno : ¬ rOk.status = 429 := by omega
    have hnx : ¬ (rOk.status < 200 ∨ 300 ≤ rOk.status) := by
      push_neg
      omega
    constructor <;> simp [DoRequest, hu, hk, hc, hno, hnx]
  | succ m ih =>
    intro c tm hc hu hk
    have hrec := ih { c with tokenManager := some (if r429.readOk then handle429TokenUpdate tm now r429.body else tm) } (if r429.readOk then handle429TokenUpdate tm now r429.body else tm) rfl hu hk
    rw [List.replicate_succ, List.cons_append]
    constructor
    · simpa [DoRequest, hu, hk, hc, h429] using hrec.1
    · have h2 := hrec.2
      simp [DoRequest, hu, hk, hc, h429, h2]
      omega

/-- Claim C2 counterexample: on a client without a token manager, a 429
response is surfaced to the caller of GetRawData as the HTTP-status error
carrying code 429, contrary to the claim that a 429 is never surfaced. -/
theorem C2_counterexample :
    (GetRawData urlAlwaysOk clientNoTM "product" [] 0
        [NetResult.response resp429empty]).outcome
      = ReqOutcome.fail (ApiError.httpStatus 429 true) := by
  rfl

/-- Claim C2 as amended: on a client with a configured token manager,
every 429 response leads the client to update the token manager from the
429 body (when the body is readable), wait via WaitIfNeeded, and re-issue
the same request (same endpoint and params) against the remaining script,
with no upper bound on the number of retry cycles; and a 429 status is
never surfaced as an error to the caller of GetRawData, PostRawData or
PostRawDataWithParams. Without a token manager the GET path surfaces the
429. -/
theorem C2_429_observed_waited_retried_absorbed (urlOk : String → String → Bool)
    (marshalOk : Bool) (c : Client) (endpoint : String)
    (params : List (String × String)) (now : Int) (tm : TokenManager)
    (hc : c.tokenManager = some tm) :
    (∀ (r : HttpResp) (rest : List NetResult), r.status = 429 →
      urlOk c.baseURL endpoint = true → ¬ c.accessKey = "" →
      DoRequest urlOk c endpoint params now (NetResult.response r :: rest)
        = ⟨(DoRequest urlOk { c with tokenManager := some (if r.readOk then handle429TokenUpdate tm now r.body else tm) } endpoint params now rest).outcome,
           (DoRequest urlOk { c with tokenManager := some (if r.readOk then handle429TokenUpdate tm now r.body else tm) } endpoint params now rest).tokenMgr,
           1 + (DoRequest urlOk { c with tokenManager := some (if r.readOk then handle429TokenUpdate tm now r.body else tm) } endpoint params now rest).sent,
           [Ev.wait, Ev.send] ++ (if r.readOk then [Ev.observe] else []) ++ [Ev.wait]
             ++ (DoRequest urlOk { c with tokenManager := some (if r.readOk then handle429TokenUpdate tm now r.body else tm) } endpoint params now rest).events⟩)
    ∧ (∀ (responses : List NetResult) (b : Bool),
        (GetRawData urlOk c endpoint params now responses).outcome
          ≠ ReqOutcome.fail (ApiError.httpStatus 429 b))
    ∧ (∀ (responses : List NetResult) (b : Bool),
        (PostRawData urlOk marshalOk c endpoint now responses).outcome
          ≠ ReqOutcome.fail (ApiError.httpStatus 429 b))
    ∧ (∀ (responses : List NetResult) (b : Bool),
        (PostRawDataWithParams urlOk marshalOk c endpoint params now responses).outcome
          ≠ ReqOutcome.fail (ApiError.httpStatus 429 b))
    ∧ (∀ (n : Nat) (r429 rOk : HttpResp), r429.status = 429 →
        200 ≤ rOk.status → rOk.status < 300 →
        urlOk c.baseURL endpoint = true → ¬ c.accessKey = "" →
        (DoRequest urlOk c endpoint params now
            (List.replicate n (NetResult.response r429) ++ [NetResult.response rOk])).outcome
          = ReqOutcome.ok rOk
        ∧ (DoRequest urlOk c endpoint params now
            (List.replicate n (NetResult.response r429) ++ [NetResult.response rOk])).sent
          = n + 1) := by
  refine ⟨?_, ?_, ?_, ?_, ?_⟩
  · intro r rest h429 hu hk
    simp [DoRequest, hu, hk, hc, h429]
  · intro responses b
    exact GetRawData_no_429_error urlOk endpoint params now responses c tm hc b
  · intro responses b
    exact PostRawData_no_429_error urlOk marshalOk endpoint now responses c b
  · intro responses b
    exact PostRawDataWithParams_no_429_error urlOk marshalOk endpoint params now responses c b
  · intro n r429 rOk h429 h2a h2b hu hk
    exact DoRequest_retry_until_success urlOk endpoint params now r429 rOk h429 h2a h2b
      n c tm hc hu hk

/-- Witness for the amended C2: two scripted 429 responses followed by a
200 yield the 200 response to the caller after exactly three dispatches. -/
theorem C2_429_observed_waited_retried_absorbed_witness :
    (DoRequest urlAlwaysOk clientWithTM "product" [] 0
        (List.replicate 2 (NetResult.response resp429empty)
          ++ [NetResult.response resp200empty])).outcome
      = ReqOutcome.ok resp200empty
    ∧ (DoRequest urlAlwaysOk clientWithTM "product" [] 0
        (List.replicate 2 (NetResult.response resp429empty)
          ++ [NetResult.response resp200empty])).sent
      = 2 + 1 := by
  have T := C2_429_observed_waited_retried_absorbed urlAlwaysOk true clientWithTM
    "product" [] 0 tmBurst rfl
  exact T.2.2.2.2 2 resp429empty resp200empty rfl (by decide) (by decide) rfl (by decide)

end Keepa
